import Mathlib

/-!
Shallow embedding of the inline struct read/write primitives of
`capn.h` (c-capnproto).

Memory model: the session's byte memory is a total map from integer
addresses to byte values (`Mem`).  A `capn_ptr` carries the fields of
`struct capn_ptr`; `data` is the integer address of the start of the
pointer's data section and `datasz` the value of the 19-bit `datasz`
bitfield.  In C the comparison `off + n <= p.datasz` promotes the
19-bit unsigned bitfield to (signed) `int`, so it is a signed
comparison; we model it as a comparison in `Int`.

The `capn_flip` family stores byte `i` of the union as
`(v >> (8*i)) & 0xFF` and the result is then reinterpreted through the
machine's native byte order.  The composite effect of
`*(uintN_t*)(p.data+off) = capn_flipN(val)` is, on either endianness,
that the byte at `p.data+off+i` becomes `(val >> (8*i)) & 0xFF`
(little-endian storage); dually `capn_flipN(*(uintN_t*)(p.data+off))`
assembles the value little-endian from the bytes.  `writeLE`/`readLE`
embed exactly these composite store/load operations.

Reads and writes are state transformers `... → result × Mem`; a read's
body contains no store, so its returned memory is the input memory.
Floats and doubles are represented by their IEEE-754 bit patterns
(`Nat` below `2^32` resp. `2^64`): the C code only ever moves them
through unions as raw bits, so this is exact.
-/

/-- Byte memory of a session: a byte value at every integer address. -/
abbrev Mem : Type := Int → Nat

/-- The `enum CAPN_TYPE` of `capn.h`. -/
inductive CAPN_TYPE where
  | CAPN_NULL
  | CAPN_STRUCT
  | CAPN_LIST
  | CAPN_PTR_LIST
  | CAPN_BIT_LIST
  deriving DecidableEq, Repr

/-- The fields of `struct capn_ptr` from `capn.h`.  `data` is the address
of the data section; `datasz` and `ptrsz` are the 19-bit bitfields;
`seg` is the address of the owning segment. -/
structure capn_ptr where
  type : CAPN_TYPE
  is_list_member : Bool
  has_ptr_tag : Bool
  has_composite_tag : Bool
  datasz : Nat
  ptrsz : Nat
  size : Int
  data : Int
  seg : Int

/-- Byte `i` placed by `capn_flipN`: `s.v[IDX] = (uint8_t)(v >> (8*IDX))`. -/
def capn_flip_byte (v : Nat) (i : Nat) : Nat :=
  (v >>> (8 * i)) % 256

/-- Composite effect of `*(uintN_t*)a = capn_flipN(v)` for `n = N/8`:
byte `a + i` becomes `(v >> (8*i)) & 0xFF` for `0 ≤ i < n`; all other
bytes are untouched. -/
def writeLE (m : Mem) (a : Int) (n : Nat) (v : Nat) : Mem :=
  fun x => if a ≤ x ∧ x < a + n then capn_flip_byte v (x - a).toNat else m x

/-- Composite effect of `capn_flipN(*(uintN_t*)a)` for `n = N/8`:
little-endian assembly of the `n` bytes starting at `a`. -/
def readLE (m : Mem) (a : Int) : Nat → Nat
  | 0 => 0
  | n + 1 => m a % 256 + 256 * readLE m (a + 1) n

/-- `capn_read8`: `off+1 <= p.datasz ? capn_flip8(*(uint8_t*)(p.data+off)) : 0`. -/
def capn_read8 (p : capn_ptr) (m : Mem) (off : Int) : Nat × Mem :=
  (if off + 1 ≤ (p.datasz : Int) then readLE m (p.data + off) 1 else 0, m)

/-- `capn_write8`: on `off+1 <= p.datasz` stores and returns 0, else returns -1. -/
def capn_write8 (p : capn_ptr) (m : Mem) (off : Int) (val : Nat) : Int × Mem :=
  if off + 1 ≤ (p.datasz : Int) then (0, writeLE m (p.data + off) 1 val)
  else (-1, m)

/-- `capn_read16`: `off+2 <= p.datasz ? capn_flip16(*(uint16_t*)(p.data+off)) : 0`. -/
def capn_read16 (p : capn_ptr) (m : Mem) (off : Int) : Nat × Mem :=
  (if off + 2 ≤ (p.datasz : Int) then readLE m (p.data + off) 2 else 0, m)

/-- `capn_write16`: on `off+2 <= p.datasz` stores and returns 0, else returns -1. -/
def capn_write16 (p : capn_ptr) (m : Mem) (off : Int) (val : Nat) : Int × Mem :=
  if off + 2 ≤ (p.datasz : Int) then (0, writeLE m (p.data + off) 2 val)
  else (-1, m)

/-- `capn_read32`: `off+4 <= p.datasz ? capn_flip32(*(uint32_t*)(p.data+off)) : 0`. -/
def capn_read32 (p : capn_ptr) (m : Mem) (off : Int) : Nat × Mem :=
  (if off + 4 ≤ (p.datasz : Int) then readLE m (p.data + off) 4 else 0, m)

/-- `capn_write32`: on `off+4 <= p.datasz` stores and returns 0, else returns -1. -/
def capn_write32 (p : capn_ptr) (m : Mem) (off : Int) (val : Nat) : Int × Mem :=
  if off + 4 ≤ (p.datasz : Int) then (0, writeLE m (p.data + off) 4 val)
  else (-1, m)

/-- `capn_read64`: `off+8 <= p.datasz ? capn_flip64(*(uint64_t*)(p.data+off)) : 0`. -/
def capn_read64 (p : capn_ptr) (m : Mem) (off : Int) : Nat × Mem :=
  (if off + 8 ≤ (p.datasz : Int) then readLE m (p.data + off) 8 else 0, m)

/-- `capn_write64`: on `off+8 <= p.datasz` stores and returns 0, else returns -1. -/
def capn_write64 (p : capn_ptr) (m : Mem) (off : Int) (val : Nat) : Int × Mem :=
  if off + 8 ≤ (p.datasz : Int) then (0, writeLE m (p.data + off) 8 val)
  else (-1, m)

/-- `capn_read_float`: `u.f = def; u.u ^= capn_read32(p, off); return u.f`
on bit patterns. -/
def capn_read_float (p : capn_ptr) (m : Mem) (off : Int) (dfl : Nat) : Nat × Mem :=
  let r := capn_read32 p m off
  (dfl ^^^ r.1, r.2)

/-- `capn_write_float`: `u.f = f; d.f = def; return capn_write32(p, off, u.u ^ d.u)`
on bit patterns. -/
def capn_write_float (p : capn_ptr) (m : Mem) (off : Int) (f dfl : Nat) : Int × Mem :=
  capn_write32 p m off (f ^^^ dfl)

/-- `capn_read_double`: `u.f = def; u.u ^= capn_read64(p, off); return u.f`
on bit patterns. -/
def capn_read_double (p : capn_ptr) (m : Mem) (off : Int) (dfl : Nat) : Nat × Mem :=
  let r := capn_read64 p m off
  (dfl ^^^ r.1, r.2)

/-- `capn_write_double` translated literally from the source, which reads
`d.f = f; u.f = f; return capn_write64(p, off, u.u ^ d.u);` — note that
BOTH unions are assigned `f` (the parameter `def` is never read), so the
value written is `f ^^^ f`. -/
def capn_write_double (p : capn_ptr) (m : Mem) (off : Int) (f dfl : Nat) : Int × Mem :=
  let d := f
  let u := f
  capn_write64 p m off (u ^^^ d)

/-- `capn_write_double` as the spec says it is intended: `u.f = f; d.f = def;
write64(u.u ^ d.u)` (compare `capn_write_float`, which does exactly this). -/
def capn_write_double_intended (p : capn_ptr) (m : Mem) (off : Int) (f dfl : Nat) :
    Int × Mem :=
  let u := f
  let d := dfl
  capn_write64 p m off (u ^^^ d)

/-- A concrete struct pointer with an 8-byte data section at address 0,
used for concrete evaluations. -/
def p8 : capn_ptr :=
  ⟨CAPN_TYPE.CAPN_STRUCT, false, false, false, 8, 0, 8, 0, 0⟩

/-- The all-zero byte memory, used for concrete evaluations. -/
def m0 : Mem := fun _ => 0

theorem readLE_congr (m1 m2 : Mem) (a : Int) (n : Nat)
    (h : ∀ i : Nat, i < n → m1 (a + i) = m2 (a + i)) :
    readLE m1 a n = readLE m2 a n := by
  induction n generalizing a with
  | zero => rfl
  | succ k ih =>
    have h0 : m1 a = m2 a := by simpa using h 0 (Nat.succ_pos k)
    have ht : readLE m1 (a + 1) k = readLE m2 (a + 1) k := by
      apply ih
      intro i hi
      have hc := h (i + 1) (by omega)
      have e : a + ((i + 1 : Nat) : Int) = a + 1 + (i : Int) := by push_cast; ring
      rwa [e] at hc
    simp [readLE, h0, ht]

theorem writeLE_get (m : Mem) (a : Int) (n v : Nat) (x : Int)
    (h1 : a ≤ x) (h2 : x < a + n) :
    writeLE m a n v x = capn_flip_byte v (x - a).toNat := by
  simp [writeLE, h1, h2]

theorem writeLE_frame (m : Mem) (a : Int) (n v : Nat) (x : Int)
    (h : x < a ∨ a + n ≤ x) :
    writeLE m a n v x = m x := by
  simp only [writeLE]
  rw [if_neg (by omega)]

theorem capn_flip_byte_succ_index (v i : Nat) :
    capn_flip_byte v (i + 1) = capn_flip_byte (v >>> 8) i := by
  unfold capn_flip_byte
  rw [show 8 * (i + 1) = 8 + 8 * i by ring, Nat.shiftRight_add]

theorem readLE_writeLE (m : Mem) (a : Int) (n v : Nat) :
    readLE (writeLE m a n v) a n = v % 2 ^ (8 * n) := by
  induction n generalizing m a v with
  | zero => simp [readLE, Nat.mod_one]
  | succ k ih =>
    have head : writeLE m a (k + 1) v a = v % 256 := by
      rw [writeLE_get m a (k + 1) v a (le_refl a) (by omega)]
      simp [capn_flip_byte]
    have tail : readLE (writeLE m a (k + 1) v) (a + 1) k
        = readLE (writeLE m (a + 1) k (v >>> 8)) (a + 1) k := by
      apply readLE_congr
      intro i hi
      rw [writeLE_get m a (k + 1) v _ (by omega) (by push_cast; omega),
          writeLE_get m (a + 1) k (v >>> 8) _ (by omega) (by omega)]
      rw [show (a + 1 + (i : Int) - a).toNat = (a + 1 + (i : Int) - (a + 1)).toNat + 1
            by omega,
          capn_flip_byte_succ_index]
    simp only [readLE, head, tail, ih]
    rw [Nat.mod_mod_of_dvd v (dvd_refl 256), Nat.shiftRight_eq_div_pow,
        show 2 ^ (8 * (k + 1)) = 256 * 2 ^ (8 * k)
          by rw [show 8 * (k + 1) = 8 + 8 * k by ring, pow_add]; norm_num,
        Nat.mod_mul]

theorem readLE_eq_sum (m : Mem) (a : Int) (n : Nat) :
    readLE m a n = ∑ i ∈ Finset.range n, m (a + i) % 256 * 2 ^ (8 * i) := by
  induction n generalizing a with
  | zero => simp [readLE]
  | succ k ih =>
    rw [readLE, ih (a + 1), Finset.sum_range_succ']
    have e1 : ∀ i : Nat, m (a + ((i + 1 : Nat) : Int)) % 256 * 2 ^ (8 * (i + 1))
        = 256 * (m (a + 1 + (i : Int)) % 256 * 2 ^ (8 * i)) := by
      intro i
      rw [show a + ((i + 1 : Nat) : Int) = a + 1 + (i : Int) by push_cast; ring,
          show 8 * (i + 1) = 8 + 8 * i by ring, pow_add]
      ring_nf
    simp only [e1]
    rw [← Finset.mul_sum]
    simp
    ring

theorem capn_read8_val (p : capn_ptr) (m : Mem) (off : Int) :
    (capn_read8 p m off).1
      = if off + 1 ≤ (p.datasz : Int) then readLE m (p.data + off) 1 else 0 := rfl

theorem capn_read16_val (p : capn_ptr) (m : Mem) (off : Int) :
    (capn_read16 p m off).1
      = if off + 2 ≤ (p.datasz : Int) then readLE m (p.data + off) 2 else 0 := rfl

theorem capn_read32_val (p : capn_ptr) (m : Mem) (off : Int) :
    (capn_read32 p m off).1
      = if off + 4 ≤ (p.datasz : Int) then readLE m (p.data + off) 4 else 0 := rfl

theorem capn_read64_val (p : capn_ptr) (m : Mem) (off : Int) :
    (capn_read64 p m off).1
      = if off + 8 ≤ (p.datasz : Int) then readLE m (p.data + off) 8 else 0 := rfl

theorem capn_write8_mem (p : capn_ptr) (m : Mem) (off : Int) (v : Nat)
    (h : off + 1 ≤ (p.datasz : Int)) :
    (capn_write8 p m off v).2 = writeLE m (p.data + off) 1 v := by
  simp [capn_write8, h]

theorem capn_write16_mem (p : capn_ptr) (m : Mem) (off : Int) (v : Nat)
    (h : off + 2 ≤ (p.datasz : Int)) :
    (capn_write16 p m off v).2 = writeLE m (p.data + off) 2 v := by
  simp [capn_write16, h]

theorem capn_write32_mem (p : capn_ptr) (m : Mem) (off : Int) (v : Nat)
    (h : off + 4 ≤ (p.datasz : Int)) :
    (capn_write32 p m off v).2 = writeLE m (p.data + off) 4 v := by
  simp [capn_write32, h]

theorem capn_write64_mem (p : capn_ptr) (m : Mem) (off : Int) (v : Nat)
    (h : off + 8 ≤ (p.datasz : Int)) :
    (capn_write64 p m off v).2 = writeLE m (p.data + off) 8 v := by
  simp [capn_write64, h]

/-- C8: every read primitive (`capn_read8/16/32/64`, `capn_read_float`,
`capn_read_double`) leaves the session state unchanged for every pointer,
offset and default: the memory the call returns is the memory it was given,
and the by-value `capn_ptr` argument is never written; reads mutate
nothing. -/
theorem capn_read_leaves_state_unchanged (p : capn_ptr) (m : Mem) (off : Int)
    (dfl : Nat) :
    (capn_read8 p m off).2 = m ∧ (capn_read16 p m off).2 = m ∧
    (capn_read32 p m off).2 = m ∧ (capn_read64 p m off).2 = m ∧
    (capn_read_float p m off dfl).2 = m ∧ (capn_read_double p m off dfl).2 = m :=
  ⟨rfl, rfl, rfl, rfl, rfl, rfl⟩

/-- C2: for every pointer, offset with `off + N/8 > datasz` (N ∈ {8,16,32,64})
and memory, the read primitive returns zero; being a function of its
arguments, no other outcome is possible for an out-of-bounds read. -/
theorem capn_read_oob_returns_zero (p : capn_ptr) (m : Mem) (off : Int) :
    (off + 1 > (p.datasz : Int) → (capn_read8 p m off).1 = 0) ∧
    (off + 2 > (p.datasz : Int) → (capn_read16 p m off).1 = 0) ∧
    (off + 4 > (p.datasz : Int) → (capn_read32 p m off).1 = 0) ∧
    (off + 8 > (p.datasz : Int) → (capn_read64 p m off).1 = 0) := by
  refine ⟨fun h => ?_, fun h => ?_, fun h => ?_, fun h => ?_⟩
  · rw [capn_read8_val, if_neg (by omega)]
  · rw [capn_read16_val, if_neg (by omega)]
  · rw [capn_read32_val, if_neg (by omega)]
  · rw [capn_read64_val, if_neg (by omega)]

/-- C2 witness: the out-of-bounds read at offset 100 of an 8-byte pointer
returns 0. -/
theorem capn_read_oob_returns_zero_witness :
    (100 : Int) + 1 > (p8.datasz : Int) ∧ (capn_read8 p8 m0 100).1 = 0 :=
  ⟨by decide, (capn_read_oob_returns_zero p8 m0 100).1 (by decide)⟩

/-- C3: `capn_writeN` (N ∈ {8,16,32,64}) returns 0 exactly when
`off + N/8 <= datasz` and −1 exactly when `off + N/8 > datasz`, and 0 and
−1 are the only two possible results. -/
theorem capn_write_result_dichotomy (p : capn_ptr) (m : Mem) (off : Int) (v : Nat) :
    ((off + 1 ≤ (p.datasz : Int) → (capn_write8 p m off v).1 = 0) ∧
     (off + 1 > (p.datasz : Int) → (capn_write8 p m off v).1 = -1) ∧
     ((capn_write8 p m off v).1 = 0 ∨ (capn_write8 p m off v).1 = -1)) ∧
    ((off + 2 ≤ (p.datasz : Int) → (capn_write16 p m off v).1 = 0) ∧
     (off + 2 > (p.datasz : Int) → (capn_write16 p m off v).1 = -1) ∧
     ((capn_write16 p m off v).1 = 0 ∨ (capn_write16 p m off v).1 = -1)) ∧
    ((off + 4 ≤ (p.datasz : Int) → (capn_write32 p m off v).1 = 0) ∧
     (off + 4 > (p.datasz : Int) → (capn_write32 p m off v).1 = -1) ∧
     ((capn_write32 p m off v).1 = 0 ∨ (capn_write32 p m off v).1 = -1)) ∧
    ((off + 8 ≤ (p.datasz : Int) → (capn_write64 p m off v).1 = 0) ∧
     (off + 8 > (p.datasz : Int) → (capn_write64 p m off v).1 = -1) ∧
     ((capn_write64 p m off v).1 = 0 ∨ (capn_write64 p m off v).1 = -1)) := by
  refine ⟨⟨fun h => ?_, fun h => ?_, ?_⟩, ⟨fun h => ?_, fun h => ?_, ?_⟩,
          ⟨fun h => ?_, fun h => ?_, ?_⟩, ⟨fun h => ?_, fun h => ?_, ?_⟩⟩
  · simp [capn_write8, h]
  · simp [capn_write8, show ¬ (off + 1 ≤ (p.datasz : Int)) by omega]
  · by_cases hc : off + 1 ≤ (p.datasz : Int) <;> simp [capn_write8, hc]
  · simp [capn_write16, h]
  · simp [capn_write16, show ¬ (off + 2 ≤ (p.datasz : Int)) by omega]
  · by_cases hc : off + 2 ≤ (p.datasz : Int) <;> simp [capn_write16, hc]
  · simp [capn_write32, h]
  · simp [capn_write32, show ¬ (off + 4 ≤ (p.datasz : Int)) by omega]
  · by_cases hc : off + 4 ≤ (p.datasz : Int) <;> simp [capn_write32, hc]
  · simp [capn_write64, h]
  · simp [capn_write64, show ¬ (off + 8 ≤ (p.datasz : Int)) by omega]
  · by_cases hc : off + 8 ≤ (p.datasz : Int) <;> simp [capn_write64, hc]

/-- C3 witness: on the 8-byte pointer, an in-bounds 8-bit write at offset 0
returns 0 and an out-of-bounds one at offset 8 returns −1. -/
theorem capn_write_result_dichotomy_witness :
    (0 : Int) + 1 ≤ (p8.datasz : Int) ∧ (capn_write8 p8 m0 0 5).1 = 0 ∧
    (8 : Int) + 1 > (p8.datasz : Int) ∧ (capn_write8 p8 m0 8 5).1 = -1 :=
  ⟨by decide, (capn_write_result_dichotomy p8 m0 0 5).1.1 (by decide),
   by decide, (capn_write_result_dichotomy p8 m0 8 5).1.2.1 (by decide)⟩

/-- C4: whenever `capn_writeN` (N ∈ {8,16,32,64}) returns −1, the returned
memory is exactly the input memory — a failed write modifies nothing (and
the by-value `capn_ptr` is never written). -/
theorem capn_write_fail_no_modification (p : capn_ptr) (m : Mem) (off : Int)
    (v : Nat) :
    ((capn_write8 p m off v).1 = -1 → (capn_write8 p m off v).2 = m) ∧
    ((capn_write16 p m off v).1 = -1 → (capn_write16 p m off v).2 = m) ∧
    ((capn_write32 p m off v).1 = -1 → (capn_write32 p m off v).2 = m) ∧
    ((capn_write64 p m off v).1 = -1 → (capn_write64 p m off v).2 = m) := by
  refine ⟨fun h => ?_, fun h => ?_, fun h => ?_, fun h => ?_⟩
  · by_cases hc : off + 1 ≤ (p.datasz : Int)
    · simp [capn_write8, hc] at h
    · simp [capn_write8, hc]
  · by_cases hc : off + 2 ≤ (p.datasz : Int)
    · simp [capn_write16, hc] at h
    · simp [capn_write16, hc]
  · by_cases hc : off + 4 ≤ (p.datasz : Int)
    · simp [capn_write32, hc] at h
    · simp [capn_write32, hc]
  · by_cases hc : off + 8 ≤ (p.datasz : Int)
    · simp [capn_write64, hc] at h
    · simp [capn_write64, hc]

/-- C4 witness: the failed 8-bit write at offset 8 of the 8-byte pointer
returns the all-zero memory unchanged. -/
theorem capn_write_fail_no_modification_witness :
    (capn_write8 p8 m0 8 5).1 = -1 ∧ (capn_write8 p8 m0 8 5).2 = m0 :=
  ⟨by decide, (capn_write_fail_no_modification p8 m0 8 5).1 (by decide)⟩

theorem readLE_one (m : Mem) (a : Int) : readLE m a 1 = m a % 256 := rfl

theorem capn_read_float_val (p : capn_ptr) (m : Mem) (off : Int) (dfl : Nat) :
    (capn_read_float p m off dfl).1 = dfl ^^^ (capn_read32 p m off).1 := rfl

theorem capn_read_double_val (p : capn_ptr) (m : Mem) (off : Int) (dfl : Nat) :
    (capn_read_double p m off dfl).1 = dfl ^^^ (capn_read64 p m off).1 := rfl

/-- C10: whenever `capn_writeN` (N ∈ {8,16,32,64}) returns 0, every byte
outside the `N/8`-byte range starting at `p.data + off` is unchanged in the
returned memory (and the by-value `capn_ptr` and its segment fields are
never written): only the written field's bytes can differ. -/
theorem capn_write_success_frame (p : capn_ptr) (m : Mem) (off : Int) (v : Nat)
    (x : Int) :
    ((capn_write8 p m off v).1 = 0 → x < p.data + off ∨ p.data + off + 1 ≤ x →
      (capn_write8 p m off v).2 x = m x) ∧
    ((capn_write16 p m off v).1 = 0 → x < p.data + off ∨ p.data + off + 2 ≤ x →
      (capn_write16 p m off v).2 x = m x) ∧
    ((capn_write32 p m off v).1 = 0 → x < p.data + off ∨ p.data + off + 4 ≤ x →
      (capn_write32 p m off v).2 x = m x) ∧
    ((capn_write64 p m off v).1 = 0 → x < p.data + off ∨ p.data + off + 8 ≤ x →
      (capn_write64 p m off v).2 x = m x) := by
  refine ⟨fun h hx => ?_, fun h hx => ?_, fun h hx => ?_, fun h hx => ?_⟩
  · by_cases hc : off + 1 ≤ (p.datasz : Int)
    · rw [capn_write8_mem p m off v hc]
      exact writeLE_frame m (p.data + off) 1 v x (by omega)
    · simp [capn_write8, hc]
  · by_cases hc : off + 2 ≤ (p.datasz : Int)
    · rw [capn_write16_mem p m off v hc]
      exact writeLE_frame m (p.data + off) 2 v x (by omega)
    · simp [capn_write16, hc]
  · by_cases hc : off + 4 ≤ (p.datasz : Int)
    · rw [capn_write32_mem p m off v hc]
      exact writeLE_frame m (p.data + off) 4 v x (by omega)
    · simp [capn_write32, hc]
  · by_cases hc : off + 8 ≤ (p.datasz : Int)
    · rw [capn_write64_mem p m off v hc]
      exact writeLE_frame m (p.data + off) 8 v x (by omega)
    · simp [capn_write64, hc]

/-- C10 witness: a successful 8-bit write at offset 0 leaves the byte at
address 5 of the all-zero memory unchanged. -/
theorem capn_write_success_frame_witness :
    (capn_write8 p8 m0 0 7).1 = 0 ∧ ((5 : Int) < p8.data + 0 ∨ p8.data + 0 + 1 ≤ 5) ∧
    (capn_write8 p8 m0 0 7).2 5 = m0 5 :=
  ⟨by decide, by decide,
   (capn_write_success_frame p8 m0 0 7 5).1 (by decide) (by decide)⟩

/-- C9: the bounds guards compare only `off + N/8 <= datasz` (a signed
comparison after the 19-bit bitfield promotes to `int`) and never check
`off >= 0`: at `off = -1`, `capn_read8` passes the guard and reads the byte
immediately before `p.data`, `capn_write8` returns 0 (success) and stores to
that same out-of-section address, and in general any offset, negative ones
included, is accepted by `capn_write8`/`capn_write64` whenever
`off + N/8 <= datasz`. -/
theorem capn_negative_offset_passes_guard (p : capn_ptr) (m : Mem) (v : Nat) :
    (capn_read8 p m (-1)).1 = m (p.data - 1) % 256 ∧
    (capn_write8 p m (-1) v).1 = 0 ∧
    (capn_write8 p m (-1) v).2 (p.data - 1) = v % 256 ∧
    (∀ off : Int, off + 1 ≤ (p.datasz : Int) → (capn_write8 p m off v).1 = 0) ∧
    (∀ off : Int, off + 8 ≤ (p.datasz : Int) → (capn_write64 p m off v).1 = 0) := by
  have hg : (-1 : Int) + 1 ≤ (p.datasz : Int) := by omega
  refine ⟨?_, ?_, ?_, fun off h => ?_, fun off h => ?_⟩
  · rw [capn_read8_val, if_pos hg, readLE_one,
        show p.data + (-1 : Int) = p.data - 1 by ring]
  · simp [capn_write8, hg]
  · rw [capn_write8_mem p m (-1) v hg,
        writeLE_get m (p.data + (-1)) 1 v (p.data - 1) (by omega) (by omega),
        show (p.data - 1 - (p.data + (-1))).toNat = 0 by omega]
    simp [capn_flip_byte]
  · simp [capn_write8, h]
  · simp [capn_write64, h]

/-- C9 witness: on the 8-byte pointer with all-zero memory, reading at
offset −1 passes the guard, writing 9 at offset −1 succeeds and lands at
address `p8.data - 1`, and the negative offset −5 is accepted by
`capn_write8`. -/
theorem capn_negative_offset_passes_guard_witness :
    (capn_read8 p8 m0 (-1)).1 = m0 (p8.data - 1) % 256 ∧
    (capn_write8 p8 m0 (-1) 9).1 = 0 ∧
    (capn_write8 p8 m0 (-1) 9).2 (p8.data - 1) = 9 % 256 ∧
    ((-5 : Int) + 1 ≤ (p8.datasz : Int) ∧ (capn_write8 p8 m0 (-5) 9).1 = 0) :=
  ⟨(capn_negative_offset_passes_guard p8 m0 9).1,
   (capn_negative_offset_passes_guard p8 m0 9).2.1,
   (capn_negative_offset_passes_guard p8 m0 9).2.2.1,
   by decide, (capn_negative_offset_passes_guard p8 m0 9).2.2.2.1 (-5) (by decide)⟩

/-- C7: when the integer read underneath is out of bounds it yields 0, so
`capn_read_float` (resp. `capn_read_double`) returns the default's bit
pattern unchanged: `def ^ 0 = def`. -/
theorem capn_read_float_double_oob_default (p : capn_ptr) (m : Mem) (off : Int)
    (dfl : Nat) :
    (off + 4 > (p.datasz : Int) → (capn_read_float p m off dfl).1 = dfl) ∧
    (off + 8 > (p.datasz : Int) → (capn_read_double p m off dfl).1 = dfl) := by
  refine ⟨fun h => ?_, fun h => ?_⟩
  · rw [capn_read_float_val, capn_read32_val, if_neg (by omega), Nat.xor_zero]
  · rw [capn_read_double_val, capn_read64_val, if_neg (by omega), Nat.xor_zero]

/-- C7 witness: out-of-bounds float and double reads at offsets 5 and 1 of
the 8-byte pointer return the default bits 1078530011 unchanged. -/
theorem capn_read_float_double_oob_default_witness :
    ((5 : Int) + 4 > (p8.datasz : Int) ∧
      (capn_read_float p8 m0 5 1078530011).1 = 1078530011) ∧
    ((1 : Int) + 8 > (p8.datasz : Int) ∧
      (capn_read_double p8 m0 1 1078530011).1 = 1078530011) :=
  ⟨⟨by decide, (capn_read_float_double_oob_default p8 m0 5 1078530011).1 (by decide)⟩,
   ⟨by decide, (capn_read_float_double_oob_default p8 m0 1 1078530011).2 (by decide)⟩⟩

/-- C6: for an in-bounds offset, `capn_read_float` after `capn_write_float`
with the same default returns the float's exact bit pattern: the write
stores `f ^ def` and the read XORs the same default back on. -/
theorem capn_float_xor_roundtrip (p : capn_ptr) (m : Mem) (off : Int) (f dfl : Nat)
    (hoff : off + 4 ≤ (p.datasz : Int)) (hf : f < 2 ^ 32) (hd : dfl < 2 ^ 32) :
    (capn_read_float p (capn_write_float p m off f dfl).2 off dfl).1 = f := by
  have hx : f ^^^ dfl < 2 ^ 32 := Nat.xor_lt_two_pow hf hd
  have h2 : (capn_write_float p m off f dfl).2 = writeLE m (p.data + off) 4 (f ^^^ dfl) :=
    capn_write32_mem p m off (f ^^^ dfl) hoff
  rw [capn_read_float_val, capn_read32_val, h2, if_pos hoff, readLE_writeLE,
      show (2 : Nat) ^ (8 * 4) = 2 ^ 32 by norm_num, Nat.mod_eq_of_lt hx,
      Nat.xor_comm f dfl, Nat.xor_cancel_left]

/-- C6 witness: on the 8-byte pointer, writing the bits of the float π with
default bits of 1.0f at offset 0 and reading back with the same default
returns π's bits exactly. -/
theorem capn_float_xor_roundtrip_witness :
    (0 : Int) + 4 ≤ (p8.datasz : Int) ∧ (1078530011 : Nat) < 2 ^ 32 ∧
    (1065353216 : Nat) < 2 ^ 32 ∧
    (capn_read_float p8 (capn_write_float p8 m0 0 1078530011 1065353216).2
      0 1065353216).1 = 1078530011 :=
  ⟨by decide, by decide, by decide,
   capn_float_xor_roundtrip p8 m0 0 1078530011 1065353216 (by decide) (by decide)
     (by decide)⟩

/-- C5: for an in-bounds offset, a successful `capn_writeN` (N ∈ {8,16,32,64})
stores `v` little-endian — the byte at `p.data + off + i` becomes
`(v >> 8*i) & 0xFF` for each `0 ≤ i < N/8` — `capn_readN` assembles its
result little-endian from the `N/8` bytes at `p.data + off`, and reading
after writing `v` (a value of the width's range) at the same in-bounds
offset returns exactly `v`. -/
theorem capn_write_read_little_endian_roundtrip (p : capn_ptr) (m : Mem)
    (off : Int) (v : Nat) :
    ((off + 1 ≤ (p.datasz : Int) → v < 2 ^ 8 →
       (∀ i : Nat, i < 1 →
          (capn_write8 p m off v).2 (p.data + off + i) = (v >>> (8 * i)) % 256) ∧
       (capn_read8 p (capn_write8 p m off v).2 off).1 = v) ∧
     (off + 1 ≤ (p.datasz : Int) →
       (capn_read8 p m off).1
         = ∑ i ∈ Finset.range 1, m (p.data + off + i) % 256 * 2 ^ (8 * i))) ∧
    ((off + 2 ≤ (p.datasz : Int) → v < 2 ^ 16 →
       (∀ i : Nat, i < 2 →
          (capn_write16 p m off v).2 (p.data + off + i) = (v >>> (8 * i)) % 256) ∧
       (capn_read16 p (capn_write16 p m off v).2 off).1 = v) ∧
     (off + 2 ≤ (p.datasz : Int) →
       (capn_read16 p m off).1
         = ∑ i ∈ Finset.range 2, m (p.data + off + i) % 256 * 2 ^ (8 * i))) ∧
    ((off + 4 ≤ (p.datasz : Int) → v < 2 ^ 32 →
       (∀ i : Nat, i < 4 →
          (capn_write32 p m off v).2 (p.data + off + i) = (v >>> (8 * i)) % 256) ∧
       (capn_read32 p (capn_write32 p m off v).2 off).1 = v) ∧
     (off + 4 ≤ (p.datasz : Int) →
       (capn_read32 p m off).1
         = ∑ i ∈ Finset.range 4, m (p.data + off + i) % 256 * 2 ^ (8 * i))) ∧
    ((off + 8 ≤ (p.datasz : Int) → v < 2 ^ 64 →
       (∀ i : Nat, i < 8 →
          (capn_write64 p m off v).2 (p.data + off + i) = (v >>> (8 * i)) % 256) ∧
       (capn_read64 p (capn_write64 p m off v).2 off).1 = v) ∧
     (off + 8 ≤ (p.datasz : Int) →
       (capn_read64 p m off).1
         = ∑ i ∈ Finset.range 8, m (p.data + off + i) % 256 * 2 ^ (8 * i))) := by
  refine ⟨⟨fun hoff hv => ⟨fun i hi => ?_, ?_⟩, fun hoff => ?_⟩,
          ⟨fun hoff hv => ⟨fun i hi => ?_, ?_⟩, fun hoff => ?_⟩,
          ⟨fun hoff hv => ⟨fun i hi => ?_, ?_⟩, fun hoff => ?_⟩,
          ⟨fun hoff hv => ⟨fun i hi => ?_, ?_⟩, fun hoff => ?_⟩⟩
  · rw [capn_write8_mem p m off v hoff,
        writeLE_get m (p.data + off) 1 v _ (by omega) (by omega),
        show (p.data + off + (i : Int) - (p.data + off)).toNat = i by omega]
    rfl
  · rw [capn_read8_val, if_pos hoff, capn_write8_mem p m off v hoff, readLE_writeLE,
        show (2 : Nat) ^ (8 * 1) = 2 ^ 8 by norm_num, Nat.mod_eq_of_lt hv]
  · rw [capn_read8_val, if_pos hoff]
    exact readLE_eq_sum m (p.data + off) 1
  · rw [capn_write16_mem p m off v hoff,
        writeLE_get m (p.data + off) 2 v _ (by omega) (by omega),
        show (p.data + off + (i : Int) - (p.data + off)).toNat = i by omega]
    rfl
  · rw [capn_read16_val, if_pos hoff, capn_write16_mem p m off v hoff, readLE_writeLE,
        show (2 : Nat) ^ (8 * 2) = 2 ^ 16 by norm_num, Nat.mod_eq_of_lt hv]
  · rw [capn_read16_val, if_pos hoff]
    exact readLE_eq_sum m (p.data + off) 2
  · rw [capn_write32_mem p m off v hoff,
        writeLE_get m (p.data + off) 4 v _ (by omega) (by omega),
        show (p.data + off + (i : Int) - (p.data + off)).toNat = i by omega]
    rfl
  · rw [capn_read32_val, if_pos hoff, capn_write32_mem p m off v hoff, readLE_writeLE,
        show (2 : Nat) ^ (8 * 4) = 2 ^ 32 by norm_num, Nat.mod_eq_of_lt hv]
  · rw [capn_read32_val, if_pos hoff]
    exact readLE_eq_sum m (p.data + off) 4
  · rw [capn_write64_mem p m off v hoff,
        writeLE_get m (p.data + off) 8 v _ (by omega) (by omega),
        show (p.data + off + (i : Int) - (p.data + off)).toNat = i by omega]
    rfl
  · rw [capn_read64_val, if_pos hoff, capn_write64_mem p m off v hoff, readLE_writeLE,
        show (2 : Nat) ^ (8 * 8) = 2 ^ 64 by norm_num, Nat.mod_eq_of_lt hv]
  · rw [capn_read64_val, if_pos hoff]
    exact readLE_eq_sum m (p.data + off) 8

/-- C5 witness: the 16-bit value 57072 written at offset 0 of the 8-byte
pointer lands as two little-endian bytes and reads back exactly. -/
theorem capn_write_read_little_endian_roundtrip_witness :
    (0 : Int) + 2 ≤ (p8.datasz : Int) ∧ (57072 : Nat) < 2 ^ 16 ∧
    ((∀ i : Nat, i < 2 →
        (capn_write16 p8 m0 0 57072).2 (p8.data + 0 + i) = (57072 >>> (8 * i)) % 256) ∧
     (capn_read16 p8 (capn_write16 p8 m0 0 57072).2 0).1 = 57072) :=
  ⟨by decide, by decide,
   (capn_write_read_little_endian_roundtrip p8 m0 0 57072).2.1.1 (by decide)
     (by decide)⟩

/-- C1 (code bug): the literal source of `capn_write_double` assigns `f` to
BOTH unions (`d.f = f; u.f = f;`), so it writes `f ^ f = 0` and ignores the
default entirely.  Concretely, at the 8-byte pointer with zero memory,
offset 0, `f` = 4607182418800017408 (the bits of 1.0) and `def` = 0 (the
bits of 0.0): the write succeeds (returns 0) but stores 0, the subsequent
`capn_read_double` returns the default's bits 0 — NOT a double bit-identical
to `f` as the claim states — while the spec's intended definition
(`u.f = f; d.f = def`) does read back `f` exactly. -/
theorem capn_write_double_ignores_value_bug :
    (capn_write_double p8 m0 0 4607182418800017408 0).1 = 0 ∧
    (capn_read_double p8 (capn_write_double p8 m0 0 4607182418800017408 0).2 0 0).1
      = 0 ∧
    (0 : Nat) ≠ 4607182418800017408 ∧
    (capn_read_double p8
      (capn_write_double_intended p8 m0 0 4607182418800017408 0).2 0 0).1
      = 4607182418800017408 :=
  ⟨by decide, by decide, by decide, by decide⟩
